import Mathlib

/-!
Verification development for the `free-augmentcode` repository
(`src/main.py`, class `AugmentCodeManager` and the `main` CLI dispatcher).

The program is a sequence of filesystem actions.  We embed the filesystem
shallowly as an association list from paths (lists of name components) to
nodes (directories or files), and translate each method of
`AugmentCodeManager` into a pure function over that state.  Randomness
(`_generate_random_id`) and the clock (`datetime.now`) are passed in as
explicit parameters, so every operation is deterministic and executable.
-/

/-- A filesystem path, as its list of components from the root. -/
abbrev FPath := List String

/-- The JSON values the program reads and writes (strings, arrays, objects
are the only shapes that occur in `main.py`). -/
inductive Json where
  | str (s : String)
  | arr (elems : List Json)
  | obj (fields : List (String × Json))

/-- Contents of a file: parseable JSON, text that is not valid JSON, or
opaque bytes (e.g. the `state.vscdb` database). -/
inductive Content where
  | json (j : Json)
  | invalid (raw : String)
  | bytes (b : String)

/-- A filesystem node: a directory or a file with contents. -/
inductive Node where
  | dir
  | file (c : Content)

/-- The filesystem: an association list from paths to nodes. -/
abbrev FS := List (FPath × Node)

/-- Look up the node at a path (first match). -/
def FS.lookup : FS → FPath → Option Node
  | [], _ => none
  | e :: rest, p => if e.1 = p then some e.2 else FS.lookup rest p

/-- `FPath.exists()`: the path is present in the filesystem. -/
def FS.existsPath (fs : FS) (p : FPath) : Bool :=
  (FS.lookup fs p).isSome

/-- Write a node at a path: replace the first entry with that key in
place, or append a new entry at the end (models creating/overwriting a
file or directory). -/
def FS.set : FS → FPath → Node → FS
  | [], p, n => [(p, n)]
  | e :: rest, p, n => if e.1 = p then (p, n) :: rest else e :: FS.set rest p n

/-- Remove every entry at a path (models deleting/moving away a file). -/
def FS.eraseKey : FS → FPath → FS
  | [], _ => []
  | e :: rest, p => if e.1 = p then FS.eraseKey rest p else e :: FS.eraseKey rest p

/-- `FPath.rename(src → dst)`: move the node at `src` to `dst`
(overwriting `dst` if present, POSIX semantics).  Call sites in the
program guard on `src.exists()`, so the missing-source branch is inert. -/
def FS.rename (fs : FS) (src dst : FPath) : FS :=
  match FS.lookup fs src with
  | none => fs
  | some n => FS.set (FS.eraseKey fs src) dst n

/-- `root` is a prefix of `p` (so `p` lies at or under `root`). -/
def isUnder : FPath → FPath → Bool
  | [], _ => true
  | _ :: _, [] => false
  | a :: as, b :: bs => if a = b then isUnder as bs else false

/-- The nonempty prefixes of a path, shortest first. -/
def prefixesOf (p : FPath) : List FPath :=
  (List.range p.length).map (fun i => p.take (i + 1))

/-- Create each of a list of directories that does not exist yet. -/
def FS.mkdirList : FS → List FPath → FS
  | fs, [] => fs
  | fs, q :: qs =>
      FS.mkdirList (if FS.existsPath fs q then fs else FS.set fs q .dir) qs

/-- `FPath.mkdir(parents=True, exist_ok=True)`: create the directory and
all missing ancestors. -/
def FS.mkdirParents (fs : FS) (p : FPath) : FS :=
  FS.mkdirList fs (prefixesOf p)

/-- Write a batch of entries in order. -/
def FS.setAll : FS → List (FPath × Node) → FS
  | fs, [] => fs
  | fs, e :: rest => FS.setAll (FS.set fs e.1 e.2) rest

/-- `shutil.copytree(src, dst, dirs_exist_ok=True)`: create `dst` and copy
every entry at or under `src` to the corresponding path under `dst`. -/
def FS.copytree (fs : FS) (src dst : FPath) : FS :=
  FS.setAll (FS.mkdirParents fs dst)
    ((fs.filter (fun e => isUnder src e.1)).map
      (fun e => (dst ++ e.1.drop src.length, e.2)))

/-- The immediate child names of a directory (`FPath.iterdir()`), in
directory-listing order. -/
def FS.children (fs : FS) (d : FPath) : List String :=
  fs.filterMap (fun e =>
    if e.1.length = d.length + 1 && isUnder d e.1 then e.1.getLast? else none)

/-- `j[key]` on a JSON object: the value at `key`, if `j` is an object
containing it. -/
def jsonGet (j : Json) (key : String) : Option Json :=
  match j with
  | .obj fields => (fields.find? (fun f => f.1 == key)).map (fun f => f.2)
  | _ => none

/-- `config.get(key, [])` followed by string membership tests: the list of
string elements of the array at `key`, or `[]`. -/
def jsonStrListD (j : Json) (key : String) : List String :=
  match jsonGet j key with
  | some (.arr l) => l.filterMap (fun x => match x with | .str s => some s | _ => none)
  | _ => []

/-! ## Paths and manager state (from `__init__` / `_get_augment_paths`) -/

/-- The operating systems `platform.system()` distinguishes. -/
inductive OS where
  | windows
  | darwin
  | linux
  | other

/-- The path table `_get_augment_paths` returns (its four keys). -/
structure AugmentPaths where
  vscode : FPath
  augment_config : FPath
  database : FPath
  history : FPath

/-- `_get_augment_paths`: the per-OS path table; `none` models the empty
dict returned (after logging an error) for an unrecognized OS. -/
def get_augment_paths (os : OS) (appData home : FPath) : Option AugmentPaths :=
  match os with
  | .windows =>
      let gs := appData ++ ["Code", "User", "globalStorage"]
      some { vscode := gs, augment_config := gs ++ ["augment.augment"],
             database := gs ++ ["augment.augment", "state.vscdb"],
             history := gs ++ ["augment.augment", "history.json"] }
  | .darwin =>
      let gs := home ++ ["Library", "Application Support", "Code", "User", "globalStorage"]
      some { vscode := gs, augment_config := gs ++ ["augment.augment"],
             database := gs ++ ["augment.augment", "state.vscdb"],
             history := gs ++ ["augment.augment", "history.json"] }
  | .linux =>
      let gs := home ++ [".config", "Code", "User", "globalStorage"]
      some { vscode := gs, augment_config := gs ++ ["augment.augment"],
             database := gs ++ ["augment.augment", "state.vscdb"],
             history := gs ++ ["augment.augment", "history.json"] }
  | .other => none

/-- The fields of an `AugmentCodeManager` that the file operations read:
`backup_dir`, `workspace`, `augment_paths` and the loaded `config`. -/
structure Manager where
  backupDir : FPath
  workspace : FPath
  augmentPaths : Option AugmentPaths
  config : Json

/-! ## Config store (`_load_config`) -/

/-- The default configuration record written on first run. -/
def default_config : Json :=
  .obj [("backup_dir", .str "./backups"),
        ("workspace", .str "./workspace"),
        ("reset_strategies", .arr [.str "device_id", .str "telemetry_id",
                                   .str "history", .str "database"]),
        ("log_level", .str "INFO")]

/-- Location of `config.json` (in the working directory). -/
def config_path : FPath := ["config.json"]

/-- `_load_config`: if `config.json` is absent, write the default record
and return it; otherwise parse it, propagating the error (as `.error`)
when the contents are not valid JSON. -/
def load_config (fs : FS) : Except String (Json × FS) :=
  if FS.existsPath fs config_path then
    match FS.lookup fs config_path with
    | some (.file (.json j)) => .ok (j, fs)
    | _ => .error "json.load failed"
  else
    .ok (default_config, FS.set fs config_path (.file (.json default_config)))

/-! ## Backup operator (`backup_current_state`) -/

/-- `backup_current_state`: create the timestamped snapshot directory,
then copy the augment config directory and the VSCode global storage into
it when each exists; return the snapshot path. -/
def backup_current_state (m : Manager) (timestamp : String) (fs : FS) : FPath × FS :=
  let backup_path := m.backupDir ++ ["backup_" ++ timestamp]
  let fs1 := FS.mkdirParents fs backup_path
  let fs2 :=
    match m.augmentPaths with
    | some ap =>
        if FS.existsPath fs1 ap.augment_config then
          FS.copytree fs1 ap.augment_config (backup_path ++ ["augment_config"])
        else fs1
    | none => fs1
  let fs3 :=
    match m.augmentPaths with
    | some ap =>
        if FS.existsPath fs2 ap.vscode then
          FS.copytree fs2 ap.vscode (backup_path ++ ["vscode_global_storage"])
        else fs2
    | none => fs2
  (backup_path, fs3)

/-! ## Reset strategies -/

/-- `_reset_device_id`: write `{"deviceId": new_device_id}` to
`deviceId.json` under the augment config directory, creating the parent
directories and the file when the file does not exist yet. -/
def reset_device_id (augment_config : FPath) (new_device_id : String) (fs : FS) : FS :=
  let device_id_file := augment_config ++ ["deviceId.json"]
  let node : Node := .file (.json (.obj [("deviceId", .str new_device_id)]))
  if FS.existsPath fs device_id_file then
    FS.set fs device_id_file node
  else
    FS.set (FS.mkdirParents fs augment_config) device_id_file node

/-- `_reset_telemetry_id`: write `{"telemetryId": new_telemetry_id}` to
`telemetry.json` under the augment config directory, creating the parent
directories and the file when the file does not exist yet. -/
def reset_telemetry_id (augment_config : FPath) (new_telemetry_id : String) (fs : FS) : FS :=
  let telemetry_file := augment_config ++ ["telemetry.json"]
  let node : Node := .file (.json (.obj [("telemetryId", .str new_telemetry_id)]))
  if FS.existsPath fs telemetry_file then
    FS.set fs telemetry_file node
  else
    FS.set (FS.mkdirParents fs augment_config) telemetry_file node

/-- `_clear_history`: overwrite the history file with an empty JSON array
when it exists; do nothing when the path table has no `history` entry or
the file does not exist. -/
def clear_history (history : Option FPath) (fs : FS) : FS :=
  match history with
  | some h =>
      if FS.existsPath fs h then FS.set fs h (.file (.json (.arr []))) else fs
  | none => fs

/-- The path `_reset_database` renames the database file to
(`with_name(f"state_backup_{timestamp}.vscdb")`, so the same directory). -/
def dbBackupPath (db : FPath) (timestamp : String) : FPath :=
  db.dropLast ++ ["state_backup_" ++ timestamp ++ ".vscdb"]

/-- `_reset_database`: rename the database file to
`state_backup_<timestamp>.vscdb` in the same directory (`with_name`) when
it exists; do nothing otherwise. -/
def reset_database (database : Option FPath) (timestamp : String) (fs : FS) : FS :=
  match database with
  | some db =>
      if FS.existsPath fs db then FS.rename fs db (dbBackupPath db timestamp)
      else fs
  | none => fs

/-- The fresh identifiers `reset_environment` draws from
`_generate_random_id` (length 32 and length 36). -/
structure ResetIds where
  device : String
  telemetry : String

/-- `reset_environment`: fall back to the configured strategy list when
the argument is empty/None; abort when the augment config directory is
missing from the path table or from the filesystem; otherwise apply the
selected strategies in the fixed order device-id, telemetry, history,
database. -/
def reset_environment (m : Manager) (strategies : List String) (ids : ResetIds)
    (timestamp : String) (fs : FS) : FS :=
  let strats := if strategies.isEmpty then jsonStrListD m.config "reset_strategies"
                else strategies
  match m.augmentPaths with
  | none => fs
  | some ap =>
      if FS.existsPath fs ap.augment_config then
        let fs1 := if strats.contains "device_id" then
                     reset_device_id ap.augment_config ids.device fs else fs
        let fs2 := if strats.contains "telemetry_id" then
                     reset_telemetry_id ap.augment_config ids.telemetry fs1 else fs1
        let fs3 := if strats.contains "history" then
                     clear_history (some ap.history) fs2 else fs2
        if strats.contains "database" then
          reset_database (some ap.database) timestamp fs3 else fs3
      else fs

/-! ## Workspace manager -/

/-- The profile JSON `create_workspace` persists. -/
def profileJson (name created_at device_id telemetry_id : String) : Json :=
  .obj [("name", .str name), ("created_at", .str created_at),
        ("device_id", .str device_id), ("telemetry_id", .str telemetry_id)]

/-- `create_workspace`: make the workspace directory (parents, exist_ok),
write the profile file `workspace_config.json` (overwriting any existing
one), and return the workspace path. -/
def create_workspace (m : Manager) (name created_at device_id telemetry_id : String)
    (fs : FS) : FPath × FS :=
  let workspace_path := m.workspace ++ [name]
  let fs1 := FS.mkdirParents fs workspace_path
  let config_file := workspace_path ++ ["workspace_config.json"]
  let fs2 := FS.set fs1 config_file
    (.file (.json (profileJson name created_at device_id telemetry_id)))
  (workspace_path, fs2)

/-- `switch_to_workspace`: return unchanged (after logging an error) when
the profile file does not exist; otherwise parse it (a parse failure
propagates), then overwrite `deviceId.json` with the stored `device_id`
only if that file exists, and likewise `telemetry.json` with the stored
`telemetry_id`.  A missing path table or missing profile key raises
(`KeyError`), modelled as `.error`. -/
def switch_to_workspace (m : Manager) (name : String) (fs : FS) : Except String FS :=
  let config_file := m.workspace ++ [name, "workspace_config.json"]
  match FS.lookup fs config_file with
  | none => .ok fs
  | some (.file (.json cfg)) =>
      (match m.augmentPaths with
       | none => .error "KeyError: augment_config"
       | some ap =>
          let device_id_file := ap.augment_config ++ ["deviceId.json"]
          let step1 : Except String FS :=
            if FS.existsPath fs device_id_file then
              match jsonGet cfg "device_id" with
              | some v => .ok (FS.set fs device_id_file (.file (.json (.obj [("deviceId", v)]))))
              | none => .error "KeyError: device_id"
            else .ok fs
          match step1 with
          | .error e => .error e
          | .ok fs1 =>
              let telemetry_file := ap.augment_config ++ ["telemetry.json"]
              if FS.existsPath fs1 telemetry_file then
                match jsonGet cfg "telemetry_id" with
                | some v => .ok (FS.set fs1 telemetry_file (.file (.json (.obj [("telemetryId", v)]))))
                | none => .error "KeyError: telemetry_id"
              else .ok fs1)
  | some _ => .error "json.load failed"

/-- Is the node at `p` a directory (`FPath.is_dir()`)? -/
def FS.isDirAt (fs : FS) (p : FPath) : Bool :=
  match FS.lookup fs p with
  | some .dir => true
  | _ => false

/-- The `list-workspaces` subcommand of `main`: the names of the
subdirectories of the workspace directory that contain a
`workspace_config.json`, in directory-listing order. -/
def list_workspaces (m : Manager) (fs : FS) : List String :=
  (FS.children fs m.workspace).filter (fun n =>
    FS.isDirAt fs (m.workspace ++ [n]) &&
    FS.existsPath fs (m.workspace ++ [n, "workspace_config.json"]))

/-- The lines `list-workspaces` prints for the entries (after the
header): one line `- <name>` per workspace. -/
def list_workspaces_output (m : Manager) (fs : FS) : List String :=
  (list_workspaces m fs).map (fun n => "- " ++ n)

/-! ## Concrete fixtures used by the counterexamples and witnesses -/

/-- A concrete augment path table (the shape `_get_augment_paths` builds:
database and history live inside the augment config directory, which
lives inside the global-storage directory). -/
def apFix : AugmentPaths :=
  { vscode := ["gs"],
    augment_config := ["gs", "augment.augment"],
    database := ["gs", "augment.augment", "state.vscdb"],
    history := ["gs", "augment.augment", "history.json"] }

/-- A concrete manager with the default configuration. -/
def mFix : Manager :=
  { backupDir := ["backups"], workspace := ["workspace"],
    augmentPaths := some apFix, config := default_config }

/-- The same manager on an unrecognized OS (empty path table). -/
def mNone : Manager :=
  { backupDir := ["backups"], workspace := ["workspace"],
    augmentPaths := none, config := default_config }

/-- Base state: what `__init__` leaves behind (config file, backup and
workspace directories), with no AugmentCode installation present. -/
def fsBase : FS :=
  [(["config.json"], .file (.json default_config)),
   (["backups"], .dir),
   (["workspace"], .dir)]

/-- Base state plus an existing augment config directory (no identifier
files yet). -/
def fsAC : FS :=
  fsBase ++ [(["gs"], .dir), (["gs", "augment.augment"], .dir)]

/-- `fsAC` plus a live database file. -/
def fsDB : FS :=
  fsAC ++ [(["gs", "augment.augment", "state.vscdb"], .file (.bytes "DBBYTES"))]

/-- `fsAC` plus a populated history file. -/
def fsHist : FS :=
  fsAC ++ [(["gs", "augment.augment", "history.json"],
            .file (.json (.arr [.str "entry1", .str "entry2"])))]

/-- `fsAC` plus a profile for workspace `w` and a live `deviceId.json`. -/
def fsSwitch : FS :=
  fsAC ++ [(["workspace", "w"], .dir),
           (["workspace", "w", "workspace_config.json"],
            .file (.json (profileJson "w" "t0" "X32" "Y36"))),
           (["gs", "augment.augment", "deviceId.json"],
            .file (.json (.obj [("deviceId", .str "OLD")])))]

/-- `fsAC` plus a profile for workspace `w`, with no live identifier
files. -/
def fsSwitchNoDev : FS :=
  fsAC ++ [(["workspace", "w"], .dir),
           (["workspace", "w", "workspace_config.json"],
            .file (.json (profileJson "w" "t0" "X32" "Y36")))]

/-- Entries of the filesystem strictly below `root` (used to observe
whether a backup snapshot was produced under the backup directory). -/
def snapshotEntries (fs : FS) (root : FPath) : FS :=
  fs.filter (fun e => isUnder root e.1 && !(decide (e.1 = root)))

/-! ## Lemmas about the filesystem primitives -/

theorem lookup_set_self (fs : FS) (p : FPath) (n : Node) :
    FS.lookup (FS.set fs p n) p = some n := by
  induction fs with
  | nil => simp [FS.set, FS.lookup]
  | cons e rest ih =>
      by_cases h : e.1 = p
      · simp [FS.set, h, FS.lookup]
      · simp [FS.set, h, FS.lookup, ih]

theorem lookup_set_ne (fs : FS) (p q : FPath) (n : Node) (h : q ≠ p) :
    FS.lookup (FS.set fs p n) q = FS.lookup fs q := by
  induction fs with
  | nil => simp [FS.set, FS.lookup, Ne.symm h]
  | cons e rest ih =>
      by_cases he : e.1 = p
      · subst he
        simp [FS.set, FS.lookup, Ne.symm h]
      · simp only [FS.set, if_neg he, FS.lookup]
        by_cases heq : e.1 = q
        · simp [heq]
        · simp [heq, ih]

theorem existsPath_set_mono (fs : FS) (p q : FPath) (n : Node)
    (h : FS.existsPath fs q = true) :
    FS.existsPath (FS.set fs p n) q = true := by
  by_cases hq : q = p
  · subst hq
    simp [FS.existsPath, lookup_set_self]
  · simpa [FS.existsPath, lookup_set_ne fs p q n hq] using h

theorem existsPath_set_ne (fs : FS) (p q : FPath) (n : Node) (h : q ≠ p) :
    FS.existsPath (FS.set fs p n) q = FS.existsPath fs q := by
  simp [FS.existsPath, lookup_set_ne fs p q n h]

theorem set_eq_append_of_not_exists (fs : FS) (p : FPath) (n : Node)
    (h : FS.existsPath fs p = false) :
    FS.set fs p n = fs ++ [(p, n)] := by
  induction fs with
  | nil => simp [FS.set]
  | cons e rest ih =>
      simp only [FS.existsPath, FS.lookup] at h
      by_cases he : e.1 = p
      · simp [he] at h
      · simp only [FS.set, if_neg he, List.cons_append, List.cons.injEq, true_and]
        exact ih (by simpa [FS.existsPath, if_neg he] using h)

theorem lookup_eraseKey_self (fs : FS) (p : FPath) :
    FS.lookup (FS.eraseKey fs p) p = none := by
  induction fs with
  | nil => simp [FS.eraseKey, FS.lookup]
  | cons e rest ih =>
      by_cases he : e.1 = p
      · simp [FS.eraseKey, he, ih]
      · simp [FS.eraseKey, he, FS.lookup, ih]

theorem lookup_eraseKey_ne (fs : FS) (p q : FPath) (h : q ≠ p) :
    FS.lookup (FS.eraseKey fs p) q = FS.lookup fs q := by
  induction fs with
  | nil => simp [FS.eraseKey]
  | cons e rest ih =>
      by_cases he : e.1 = p
      · subst he
        simp [FS.eraseKey, FS.lookup, Ne.symm h, ih]
      · simp only [FS.eraseKey, if_neg he, FS.lookup]
        by_cases heq : e.1 = q
        · simp [heq]
        · simp [heq, ih]

theorem existsPath_eraseKey_false (fs : FS) (p q : FPath)
    (h : FS.existsPath fs q = false) :
    FS.existsPath (FS.eraseKey fs p) q = false := by
  by_cases hq : q = p
  · subst hq
    simp [FS.existsPath, lookup_eraseKey_self]
  · simpa [FS.existsPath, lookup_eraseKey_ne fs p q hq] using h

theorem mem_of_mem_eraseKey {fs : FS} {p : FPath} {e : FPath × Node}
    (h : e ∈ FS.eraseKey fs p) : e ∈ fs := by
  induction fs with
  | nil => simp [FS.eraseKey] at h
  | cons a rest ih =>
      by_cases ha : a.1 = p
      · simp only [FS.eraseKey, if_pos ha] at h
        exact List.mem_cons_of_mem a (ih h)
      · simp only [FS.eraseKey, if_neg ha, List.mem_cons] at h
        rcases h with h | h
        · exact h ▸ List.mem_cons_self a rest
        · exact List.mem_cons_of_mem a (ih h)

theorem lookup_some_mem {fs : FS} {p : FPath} {n : Node}
    (h : FS.lookup fs p = some n) : (p, n) ∈ fs := by
  induction fs with
  | nil => simp [FS.lookup] at h
  | cons e rest ih =>
      by_cases he : e.1 = p
      · simp only [FS.lookup, if_pos he] at h
        injection h with h2
        exact List.mem_cons.mpr (Or.inl (Prod.ext he h2).symm)
      · simp only [FS.lookup, if_neg he] at h
        exact List.mem_cons_of_mem e (ih h)

theorem isUnder_take (p : FPath) (k : Nat) : isUnder (p.take k) p = true := by
  induction p generalizing k with
  | nil => cases k <;> simp [isUnder]
  | cons a as ih =>
      cases k with
      | zero => simp [isUnder]
      | succ k => simpa [isUnder] using ih k

theorem isUnder_refl (p : FPath) : isUnder p p = true := by
  simpa using isUnder_take p p.length

theorem isUnder_antisymm {p q : FPath} (h1 : isUnder p q = true)
    (h2 : isUnder q p = true) : p = q := by
  induction p generalizing q with
  | nil => cases q with
      | nil => rfl
      | cons b bs => simp [isUnder] at h2
  | cons a as ih =>
      cases q with
      | nil => simp [isUnder] at h1
      | cons b bs =>
          by_cases hab : a = b
          · subst hab
            simp only [isUnder, if_pos rfl] at h1 h2
            exact congrArg (a :: ·) (ih h1 h2)
          · simp [isUnder, hab] at h1

theorem mem_prefixesOf_isUnder {q p : FPath} (h : q ∈ prefixesOf p) :
    isUnder q p = true := by
  simp only [prefixesOf, List.mem_map] at h
  obtain ⟨i, _, rfl⟩ := h
  exact isUnder_take p (i + 1)

theorem self_mem_prefixesOf {p : FPath} (h : p ≠ []) : p ∈ prefixesOf p := by
  have hp : 0 < p.length := List.length_pos.mpr h
  have h1 : p.length - 1 ∈ List.range p.length := by
    simp [List.mem_range]
    omega
  have h2 : p.take (p.length - 1 + 1) = p := by
    have he : p.length - 1 + 1 = p.length := by omega
    rw [he]
    exact List.take_length p
  simpa only [prefixesOf, List.mem_map] using ⟨p.length - 1, h1, h2⟩

theorem lookup_mkdirList_not_mem (fs : FS) (ps : List FPath) (r : FPath)
    (h : r ∉ ps) :
    FS.lookup (FS.mkdirList fs ps) r = FS.lookup fs r := by
  induction ps generalizing fs with
  | nil => simp [FS.mkdirList]
  | cons q qs ih =>
      have hq : r ≠ q := fun hh => h (hh ▸ List.mem_cons_self q qs)
      have hqs : r ∉ qs := fun hh => h (List.mem_cons_of_mem q hh)
      simp only [FS.mkdirList]
      rw [ih _ hqs]
      by_cases he : FS.existsPath fs q
      · simp [he]
      · simp [he, lookup_set_ne fs q r Node.dir hq]

theorem existsPath_mkdirList_mono (fs : FS) (ps : List FPath) (r : FPath)
    (h : FS.existsPath fs r = true) :
    FS.existsPath (FS.mkdirList fs ps) r = true := by
  induction ps generalizing fs with
  | nil => simpa [FS.mkdirList] using h
  | cons q qs ih =>
      simp only [FS.mkdirList]
      by_cases he : FS.existsPath fs q
      · simpa [he] using ih fs h
      · simp only [he, if_false]
        exact ih _ (existsPath_set_mono fs q r Node.dir h)

theorem existsPath_mkdirList_of_mem (fs : FS) (ps : List FPath) (r : FPath)
    (h : r ∈ ps) :
    FS.existsPath (FS.mkdirList fs ps) r = true := by
  induction ps generalizing fs with
  | nil => simp at h
  | cons q qs ih =>
      simp only [FS.mkdirList]
      rcases List.mem_cons.mp h with hq | hqs
      · subst hq
        by_cases he : FS.existsPath fs r
        · simpa [he] using existsPath_mkdirList_mono fs qs r he
        · simp only [he, if_false]
          exact existsPath_mkdirList_mono _ qs r
            (by simp [FS.existsPath, lookup_set_self])
      · by_cases he : FS.existsPath fs q
        · simpa [he] using ih fs hqs
        · simp only [he, if_false]
          exact ih _ hqs

theorem lookup_mkdirList_of_exists (fs : FS) (ps : List FPath) (r : FPath)
    (h : FS.existsPath fs r = true) :
    FS.lookup (FS.mkdirList fs ps) r = FS.lookup fs r := by
  induction ps generalizing fs with
  | nil => simp [FS.mkdirList]
  | cons q qs ih =>
      simp only [FS.mkdirList]
      by_cases he : FS.existsPath fs q
      · simpa [he] using ih fs h
      · have hq : r ≠ q := fun hh => he (hh ▸ h)
        rw [if_neg he,
            ih (FS.set fs q Node.dir) (existsPath_set_mono fs q r Node.dir h)]
        exact lookup_set_ne fs q r Node.dir hq

theorem lookup_mkdirParents_not_under (fs : FS) (p r : FPath)
    (h : isUnder r p = false) :
    FS.lookup (FS.mkdirParents fs p) r = FS.lookup fs r := by
  refine lookup_mkdirList_not_mem fs (prefixesOf p) r (fun hm => ?hc)
  rw [mem_prefixesOf_isUnder hm] at h
  simp at h

theorem existsPath_mkdirParents_self (fs : FS) (p : FPath) (h : p ≠ []) :
    FS.existsPath (FS.mkdirParents fs p) p = true :=
  existsPath_mkdirList_of_mem fs (prefixesOf p) p (self_mem_prefixesOf h)

theorem existsPath_mkdirParents_mono (fs : FS) (p r : FPath)
    (h : FS.existsPath fs r = true) :
    FS.existsPath (FS.mkdirParents fs p) r = true :=
  existsPath_mkdirList_mono fs (prefixesOf p) r h

theorem lookup_mkdirParents_of_exists (fs : FS) (p r : FPath)
    (h : FS.existsPath fs r = true) :
    FS.lookup (FS.mkdirParents fs p) r = FS.lookup fs r :=
  lookup_mkdirList_of_exists fs (prefixesOf p) r h

theorem existsPath_setAll_mono (fs : FS) (l : List (FPath × Node)) (r : FPath)
    (h : FS.existsPath fs r = true) :
    FS.existsPath (FS.setAll fs l) r = true := by
  induction l generalizing fs with
  | nil => simpa [FS.setAll] using h
  | cons e rest ih =>
      simp only [FS.setAll]
      exact ih _ (existsPath_set_mono fs e.1 r e.2 h)

theorem existsPath_copytree_mono (fs : FS) (src dst r : FPath)
    (h : FS.existsPath fs r = true) :
    FS.existsPath (FS.copytree fs src dst) r = true :=
  existsPath_setAll_mono _ _ r (existsPath_mkdirParents_mono fs dst r h)

theorem append_singleton_ne {p : FPath} {a b : String} (h : a ≠ b) :
    p ++ [a] ≠ p ++ [b] := by
  intro hh
  exact h (by simpa using List.append_cancel_left hh)

/-- `s` begins with `pre` (character-list prefix). -/
def strHasPre (pre s : String) : Bool :=
  pre.data.isPrefixOf s.data

theorem strHasPre_append (pre t : String) : strHasPre pre (pre ++ t) = true := by
  rw [strHasPre, String.data_append, List.isPrefixOf_iff_prefix]
  exact List.prefix_append pre.data t.data

/-- The last path component looks like a timestamped database backup
(`state_backup_<...>`). -/
def isBackupName (p : FPath) : Bool :=
  match p.getLast? with
  | some s => strHasPre "state_backup_" s
  | none => false

theorem isBackupName_dbBackupPath (db : FPath) (ts : String) :
    isBackupName (dbBackupPath db ts) = true := by
  rw [isBackupName, dbBackupPath, List.getLast?_concat]
  have h : "state_backup_" ++ ts ++ ".vscdb" = "state_backup_" ++ (ts ++ ".vscdb") :=
    String.append_assoc _ _ _
  rw [h]
  exact strHasPre_append _ _

/-! ## Frame lemmas for the reset sub-operations -/

theorem lookup_reset_device_id_ne (ac : FPath) (id : String) (fs : FS) (r : FPath)
    (h1 : r ≠ ac ++ ["deviceId.json"]) (h2 : isUnder r ac = false) :
    FS.lookup (reset_device_id ac id fs) r = FS.lookup fs r := by
  rw [reset_device_id]
  by_cases h : FS.existsPath fs (ac ++ ["deviceId.json"])
  · rw [if_pos h]
    exact lookup_set_ne fs _ r _ h1
  · rw [if_neg h, lookup_set_ne _ _ r _ h1]
    exact lookup_mkdirParents_not_under fs ac r h2

theorem lookup_reset_telemetry_id_ne (ac : FPath) (id : String) (fs : FS) (r : FPath)
    (h1 : r ≠ ac ++ ["telemetry.json"]) (h2 : isUnder r ac = false) :
    FS.lookup (reset_telemetry_id ac id fs) r = FS.lookup fs r := by
  rw [reset_telemetry_id]
  by_cases h : FS.existsPath fs (ac ++ ["telemetry.json"])
  · rw [if_pos h]
    exact lookup_set_ne fs _ r _ h1
  · rw [if_neg h, lookup_set_ne _ _ r _ h1]
    exact lookup_mkdirParents_not_under fs ac r h2

theorem lookup_clear_history_ne (hp : FPath) (fs : FS) (r : FPath)
    (h1 : r ≠ hp) :
    FS.lookup (clear_history (some hp) fs) r = FS.lookup fs r := by
  rw [clear_history]
  by_cases h : FS.existsPath fs hp
  · rw [if_pos h]
    exact lookup_set_ne fs _ r _ h1
  · rw [if_neg h]

theorem lookup_reset_database_ne (db : FPath) (ts : String) (fs : FS) (r : FPath)
    (h1 : r ≠ db) (h2 : r ≠ dbBackupPath db ts) :
    FS.lookup (reset_database (some db) ts fs) r = FS.lookup fs r := by
  rw [reset_database]
  by_cases h : FS.existsPath fs db
  · rw [if_pos h, FS.rename]
    cases hl : FS.lookup fs db with
    | none => rfl
    | some n =>
        rw [lookup_set_ne _ _ r _ h2]
        exact lookup_eraseKey_ne fs db r h1
  · rw [if_neg h]

theorem lookup_reset_device_id_self (ac : FPath) (id : String) (fs : FS) :
    FS.lookup (reset_device_id ac id fs) (ac ++ ["deviceId.json"])
      = some (.file (.json (.obj [("deviceId", .str id)]))) := by
  rw [reset_device_id]
  by_cases h : FS.existsPath fs (ac ++ ["deviceId.json"])
  · rw [if_pos h]
    exact lookup_set_self _ _ _
  · rw [if_neg h]
    exact lookup_set_self _ _ _

theorem lookup_reset_telemetry_id_self (ac : FPath) (id : String) (fs : FS) :
    FS.lookup (reset_telemetry_id ac id fs) (ac ++ ["telemetry.json"])
      = some (.file (.json (.obj [("telemetryId", .str id)]))) := by
  rw [reset_telemetry_id]
  by_cases h : FS.existsPath fs (ac ++ ["telemetry.json"])
  · rw [if_pos h]
    exact lookup_set_self _ _ _
  · rw [if_neg h]
    exact lookup_set_self _ _ _

theorem isUnder_length {q p : FPath} (h : isUnder q p = true) :
    q.length ≤ p.length := by
  induction q generalizing p with
  | nil => simp
  | cons a as ih =>
      cases p with
      | nil => simp [isUnder] at h
      | cons b bs =>
          by_cases hab : a = b
          · subst hab
            simp only [isUnder, if_pos rfl] at h
            simpa using ih h
          · simp [isUnder, hab] at h

theorem isUnder_append_singleton (p : FPath) (a : String) :
    isUnder (p ++ [a]) p = false := by
  cases hc : isUnder (p ++ [a]) p with
  | false => rfl
  | true =>
      exfalso
      have := isUnder_length hc
      simp at this

/-! ## Claim C1 -/

/-- C1 counterexample: creating workspace `w` a second time with fresh
identifiers succeeds and overwrites the stored profile, so the first
profile's identifiers are not left unchanged and the profile file is
overwritten. -/
theorem C1_cex :
    FS.lookup ((create_workspace mFix "w" "t1" "AAAA" "BBBB" fsBase).2)
        ["workspace", "w", "workspace_config.json"]
      = some (.file (.json (profileJson "w" "t1" "AAAA" "BBBB"))) ∧
    FS.lookup ((create_workspace mFix "w" "t2" "CCCC" "DDDD"
        (create_workspace mFix "w" "t1" "AAAA" "BBBB" fsBase).2).2)
        ["workspace", "w", "workspace_config.json"]
      = some (.file (.json (profileJson "w" "t2" "CCCC" "DDDD"))) ∧
    ("CCCC" : String) ≠ "AAAA" :=
  ⟨rfl, rfl, by decide⟩

/-- C1 (amended): `create_workspace` never fails on an existing name: a
second create with the same name returns the workspace path again and
overwrites the stored profile with the second call's fresh identifiers
and timestamp. -/
theorem C1_thm (m : Manager) (name t1 a1 b1 t2 a2 b2 : String) (fs : FS) :
    (create_workspace m name t2 a2 b2
        (create_workspace m name t1 a1 b1 fs).2).1 = m.workspace ++ [name] ∧
    FS.lookup (create_workspace m name t2 a2 b2
        (create_workspace m name t1 a1 b1 fs).2).2
        (m.workspace ++ [name, "workspace_config.json"])
      = some (.file (.json (profileJson name t2 a2 b2))) := by
  constructor
  · rfl
  · have hp : m.workspace ++ [name, "workspace_config.json"]
        = (m.workspace ++ [name]) ++ ["workspace_config.json"] := by simp
    rw [hp]
    exact lookup_set_self _ _ _

/-! ## Claim C5 -/

/-- C5 counterexample: when `deviceId.json` does not exist, the device-id
reset is not a no-op: it creates the file with the fresh identifier. -/
theorem C5_cex :
    FS.lookup fsAC ["gs", "augment.augment", "deviceId.json"] = none ∧
    FS.lookup (reset_device_id ["gs", "augment.augment"] "NEWID" fsAC)
        ["gs", "augment.augment", "deviceId.json"]
      = some (.file (.json (.obj [("deviceId", .str "NEWID")]))) :=
  ⟨rfl, rfl⟩

/-- C5 (amended): history clear and database reset are no-ops when their
target file is missing, but the device-id and telemetry resets always
leave the target file present with the fresh identifier — when it was
missing they create it rather than skipping. -/
theorem C5_thm :
    (∀ (p : FPath) (fs : FS), FS.existsPath fs p = false →
        clear_history (some p) fs = fs) ∧
    (∀ (p : FPath) (ts : String) (fs : FS), FS.existsPath fs p = false →
        reset_database (some p) ts fs = fs) ∧
    (∀ (ac : FPath) (id : String) (fs : FS),
        FS.lookup (reset_device_id ac id fs) (ac ++ ["deviceId.json"])
          = some (.file (.json (.obj [("deviceId", .str id)])))) ∧
    (∀ (ac : FPath) (id : String) (fs : FS),
        FS.lookup (reset_telemetry_id ac id fs) (ac ++ ["telemetry.json"])
          = some (.file (.json (.obj [("telemetryId", .str id)])))) := by
  refine ⟨?h1, ?h2, ?h3, ?h4⟩
  · intro p fs h
    rw [clear_history, if_neg (by simp [h])]
  · intro p ts fs h
    rw [reset_database, if_neg (by simp [h])]
  · intro ac id fs
    exact lookup_reset_device_id_self ac id fs
  · intro ac id fs
    exact lookup_reset_telemetry_id_self ac id fs

/-- C5 witness: the amended statement evaluated at concrete states. -/
theorem C5_witness :
    clear_history (some ["gs", "augment.augment", "history.json"]) fsBase = fsBase ∧
    reset_database (some ["gs", "augment.augment", "state.vscdb"]) "TS1" fsBase = fsBase ∧
    FS.lookup (reset_device_id ["gs", "augment.augment"] "D1" fsAC)
        (["gs", "augment.augment"] ++ ["deviceId.json"])
      = some (.file (.json (.obj [("deviceId", .str "D1")]))) ∧
    FS.lookup (reset_telemetry_id ["gs", "augment.augment"] "T1" fsAC)
        (["gs", "augment.augment"] ++ ["telemetry.json"])
      = some (.file (.json (.obj [("telemetryId", .str "T1")]))) :=
  ⟨C5_thm.1 _ fsBase rfl, C5_thm.2.1 _ "TS1" fsBase rfl,
   C5_thm.2.2.1 _ "D1" fsAC, C5_thm.2.2.2 _ "T1" fsAC⟩

/-! ## Claim C6 -/

/-- C6 counterexample: when the history file is absent beforehand, the
history-clear strategy leaves it absent — the container is not created
empty, contradicting the claim. -/
theorem C6_cex :
    FS.existsPath fsAC ["gs", "augment.augment", "history.json"] = false ∧
    clear_history (some ["gs", "augment.augment", "history.json"]) fsAC = fsAC :=
  ⟨rfl, rfl⟩

/-- C6 (amended): when the history file pre-exists, history clear
overwrites it with an empty JSON array and changes nothing else; when it
is absent beforehand it is a no-op and the file stays absent. -/
theorem C6_thm (p : FPath) (fs : FS) :
    (FS.existsPath fs p = false → clear_history (some p) fs = fs) ∧
    (FS.existsPath fs p = true →
      FS.lookup (clear_history (some p) fs) p = some (.file (.json (.arr []))) ∧
      ∀ r, r ≠ p → FS.lookup (clear_history (some p) fs) r = FS.lookup fs r) := by
  constructor
  · intro h
    rw [clear_history, if_neg (by simp [h])]
  · intro h
    constructor
    · rw [clear_history, if_pos h]
      exact lookup_set_self _ _ _
    · intro r hr
      exact lookup_clear_history_ne p fs r hr

/-- C6 witness: the amended statement evaluated on a state with a
populated history file. -/
theorem C6_witness :
    FS.lookup (clear_history (some ["gs", "augment.augment", "history.json"]) fsHist)
        ["gs", "augment.augment", "history.json"]
      = some (.file (.json (.arr []))) :=
  ((C6_thm ["gs", "augment.augment", "history.json"] fsHist).2 rfl).1

/-! ## Claim C8 -/

/-- C8: `_load_config` returns the parsed contents when `config.json`
exists and holds valid JSON; writes and returns the default record when
the file is absent; and propagates an error when the file exists but is
not valid JSON. -/
theorem C8_thm (fs : FS) :
    (FS.lookup fs config_path = none →
        load_config fs
          = .ok (default_config, FS.set fs config_path (.file (.json default_config)))) ∧
    (∀ j, FS.lookup fs config_path = some (.file (.json j)) →
        load_config fs = .ok (j, fs)) ∧
    (∀ s, FS.lookup fs config_path = some (.file (.invalid s)) →
        load_config fs = .error "json.load failed") := by
  refine ⟨?h1, ?h2, ?h3⟩
  · intro h
    rw [load_config, if_neg (by simp [FS.existsPath, h])]
  · intro j h
    rw [load_config, if_pos (by simp [FS.existsPath, h]), h]
  · intro s h
    rw [load_config, if_pos (by simp [FS.existsPath, h]), h]

/-- C8 witness: the three arms evaluated at concrete states (missing
file, valid JSON, invalid JSON). -/
theorem C8_witness :
    load_config [(["backups"], Node.dir)]
      = .ok (default_config,
             FS.set [(["backups"], Node.dir)] config_path (.file (.json default_config))) ∧
    load_config fsBase = .ok (default_config, fsBase) ∧
    load_config [(["config.json"], Node.file (.invalid "not json"))]
      = .error "json.load failed" :=
  ⟨(C8_thm [(["backups"], Node.dir)]).1 rfl,
   (C8_thm fsBase).2.1 default_config rfl,
   (C8_thm [(["config.json"], Node.file (.invalid "not json"))]).2.2 "not json" rfl⟩

/-! ## Claim C9 -/

/-- C9 counterexample: `list-workspaces` after `create-workspace demo`
prints the bare line `- demo`; two runs whose profiles store different
creation timestamps and identifiers produce the identical listing, so the
entry includes neither a creation timestamp nor a masked identifier
prefix, and no profile contents are parsed. -/
theorem C9_cex :
    list_workspaces_output mFix
        ((create_workspace mFix "demo" "2024-01-01T00:00:00" "ID32A" "ID36A" fsBase).2)
      = ["- demo"] ∧
    list_workspaces_output mFix
        ((create_workspace mFix "demo" "2025-06-06T06:06:06" "ID32B" "ID36B" fsBase).2)
      = ["- demo"] ∧
    ("2024-01-01T00:00:00" : String) ≠ "2025-06-06T06:06:06" :=
  ⟨rfl, rfl, by decide⟩

/-- C9 (amended): after `create-workspace demo` in a fresh state,
`list-workspaces` shows exactly one entry, the line `- demo`; the listing
only checks each subdirectory for the presence of a profile file and
prints its name, independent of the stored timestamp and identifiers. -/
theorem C9_thm (t d te : String) :
    list_workspaces_output mFix ((create_workspace mFix "demo" t d te fsBase).2)
      = ["- demo"] := rfl

/-! ## Claim C4 -/

/-- C4: in a state where the database file exists (and, as on a real
filesystem, its enclosing augment config directory exists, and no
timestamped database backup exists yet), reset with the database strategy
selected removes the file from its original path and leaves exactly one
timestamped backup file, in the same directory, holding the original
bytes; every other path is untouched. -/
theorem C4_thm (m : Manager) (ap : AugmentPaths) (ids : ResetIds) (ts : String)
    (fs : FS) (b : String)
    (hap : m.augmentPaths = some ap)
    (hac : FS.existsPath fs ap.augment_config = true)
    (hdb : FS.lookup fs ap.database = some (.file (.bytes b)))
    (hclean : fs.filter (fun e => isBackupName e.1) = []) :
    FS.existsPath (reset_environment m ["database"] ids ts fs) ap.database = false ∧
    FS.lookup (reset_environment m ["database"] ids ts fs)
        (dbBackupPath ap.database ts) = some (.file (.bytes b)) ∧
    (reset_environment m ["database"] ids ts fs).filter (fun e => isBackupName e.1)
      = [(dbBackupPath ap.database ts, .file (.bytes b))] ∧
    (∀ r, r ≠ ap.database → r ≠ dbBackupPath ap.database ts →
        FS.lookup (reset_environment m ["database"] ids ts fs) r = FS.lookup fs r) := by
  have hdbx : FS.existsPath fs ap.database = true := by
    simp [FS.existsPath, hdb]
  have hmem : (ap.database, Node.file (Content.bytes b)) ∈ fs := lookup_some_mem hdb
  have hfresh : FS.existsPath fs (dbBackupPath ap.database ts) = false := by
    cases hl : FS.lookup fs (dbBackupPath ap.database ts) with
    | none => simp [FS.existsPath, hl]
    | some n =>
        exfalso
        have hm := lookup_some_mem hl
        have hmm : (dbBackupPath ap.database ts, n)
            ∈ fs.filter (fun e => isBackupName e.1) :=
          List.mem_filter.mpr ⟨hm, isBackupName_dbBackupPath _ _⟩
        rw [hclean] at hmm
        simp at hmm
  have hne : ap.database ≠ dbBackupPath ap.database ts := by
    intro hh
    rw [← hh] at hfresh
    rw [hdbx] at hfresh
    exact Bool.noConfusion hfresh
  obtain ⟨bd, ws, apo, cfg⟩ := m
  simp only [Manager.augmentPaths] at hap
  subst hap
  have hred : reset_environment ⟨bd, ws, some ap, cfg⟩ ["database"] ids ts fs
      = FS.set (FS.eraseKey fs ap.database) (dbBackupPath ap.database ts)
          (.file (.bytes b)) := by
    have h0 : reset_environment ⟨bd, ws, some ap, cfg⟩ ["database"] ids ts fs
        = (if FS.existsPath fs ap.augment_config = true
           then reset_database (some ap.database) ts fs else fs) := rfl
    rw [h0, if_pos hac, reset_database, if_pos hdbx, FS.rename, hdb]
  refine ⟨?h1, ?h2, ?h3, ?h4⟩
  · rw [hred, FS.existsPath, lookup_set_ne _ _ _ _ hne, lookup_eraseKey_self]
    rfl
  · rw [hred]
    exact lookup_set_self _ _ _
  · have hfresh2 : FS.existsPath (FS.eraseKey fs ap.database)
        (dbBackupPath ap.database ts) = false :=
      existsPath_eraseKey_false fs ap.database _ hfresh
    rw [hred, set_eq_append_of_not_exists _ _ _ hfresh2, List.filter_append]
    have hA : (FS.eraseKey fs ap.database).filter (fun e => isBackupName e.1) = [] := by
      refine List.filter_eq_nil_iff.mpr (fun e he => ?ha)
      have hin : e ∈ fs := mem_of_mem_eraseKey he
      simpa using List.filter_eq_nil_iff.mp hclean e hin
    rw [hA]
    simp [List.filter, isBackupName_dbBackupPath]
  · intro r hr1 hr2
    rw [hred, lookup_set_ne _ _ _ _ hr2]
    exact lookup_eraseKey_ne fs ap.database r hr1

/-- C4 witness: the statement evaluated on a concrete state with a live
database file. -/
theorem C4_witness :
    FS.existsPath (reset_environment mFix ["database"] ⟨"D32", "T36"⟩ "TS1" fsDB)
        apFix.database = false ∧
    FS.lookup (reset_environment mFix ["database"] ⟨"D32", "T36"⟩ "TS1" fsDB)
        (dbBackupPath apFix.database "TS1") = some (.file (.bytes "DBBYTES")) ∧
    (reset_environment mFix ["database"] ⟨"D32", "T36"⟩ "TS1" fsDB).filter
        (fun e => isBackupName e.1)
      = [(dbBackupPath apFix.database "TS1", .file (.bytes "DBBYTES"))] ∧
    (∀ r, r ≠ apFix.database → r ≠ dbBackupPath apFix.database "TS1" →
        FS.lookup (reset_environment mFix ["database"] ⟨"D32", "T36"⟩ "TS1" fsDB) r
          = FS.lookup fsDB r) :=
  C4_thm mFix apFix ⟨"D32", "T36"⟩ "TS1" fsDB "DBBYTES" rfl rfl rfl rfl

/-! ## Claim C3 -/

/-- The state `switch_to_workspace mFix "w" fsSwitch` produces: the live
`deviceId.json` is overwritten in place with the stored identifier, and
nothing else changes. -/
def fsSwitchRes : FS :=
  fsAC ++ [(["workspace", "w"], .dir),
           (["workspace", "w", "workspace_config.json"],
            .file (.json (profileJson "w" "t0" "X32" "Y36"))),
           (["gs", "augment.augment", "deviceId.json"],
            .file (.json (.obj [("deviceId", .str "X32")])))]

/-- C3 counterexample: switching to an existing profile overwrites the
live device-id file but produces no backup snapshot at all (nothing
appears under the backup directory), and when the live device-id file is
absent the switch leaves it absent, so its contents do not equal the
stored identifier. -/
theorem C3_cex :
    switch_to_workspace mFix "w" fsSwitch = .ok fsSwitchRes ∧
    FS.lookup fsSwitchRes ["gs", "augment.augment", "deviceId.json"]
      = some (.file (.json (.obj [("deviceId", .str "X32")]))) ∧
    snapshotEntries fsSwitchRes ["backups"] = [] ∧
    switch_to_workspace mFix "w" fsSwitchNoDev = .ok fsSwitchNoDev ∧
    FS.lookup fsSwitchNoDev ["gs", "augment.augment", "deviceId.json"] = none :=
  ⟨rfl, rfl, rfl, rfl, rfl⟩

/-- C3 (amended): for a name with no profile, switch returns normally and
changes nothing; for an existing, parseable profile, switch performs no
backup and changes nothing except that it overwrites the live
`deviceId.json` (resp. `telemetry.json`) with the stored device (resp.
telemetry) identifier when — and only when — that live file already
exists. -/
theorem C3_thm :
    (∀ (m : Manager) (name : String) (fs : FS),
        FS.lookup fs (m.workspace ++ [name, "workspace_config.json"]) = none →
        switch_to_workspace m name fs = .ok fs) ∧
    (∀ (m : Manager) (name : String) (fs fs' : FS) (ap : AugmentPaths)
        (cfg : Json) (d t : Json),
        m.augmentPaths = some ap →
        FS.lookup fs (m.workspace ++ [name, "workspace_config.json"])
          = some (.file (.json cfg)) →
        jsonGet cfg "device_id" = some d →
        jsonGet cfg "telemetry_id" = some t →
        switch_to_workspace m name fs = .ok fs' →
        (FS.lookup fs' (ap.augment_config ++ ["deviceId.json"])
            = (if FS.existsPath fs (ap.augment_config ++ ["deviceId.json"]) = true
               then some (.file (.json (.obj [("deviceId", d)])))
               else FS.lookup fs (ap.augment_config ++ ["deviceId.json"]))) ∧
        (FS.lookup fs' (ap.augment_config ++ ["telemetry.json"])
            = (if FS.existsPath fs (ap.augment_config ++ ["telemetry.json"]) = true
               then some (.file (.json (.obj [("telemetryId", t)])))
               else FS.lookup fs (ap.augment_config ++ ["telemetry.json"]))) ∧
        (∀ r, r ≠ ap.augment_config ++ ["deviceId.json"] →
              r ≠ ap.augment_config ++ ["telemetry.json"] →
              FS.lookup fs' r = FS.lookup fs r)) := by
  constructor
  · intro m name fs h
    simp only [switch_to_workspace, h]
  · intro m name fs fs' ap cfg d t hap hcfg hd ht hres
    have hne : ap.augment_config ++ ["deviceId.json"]
        ≠ ap.augment_config ++ ["telemetry.json"] :=
      append_singleton_ne (by decide)
    simp only [switch_to_workspace, hcfg, hap] at hres
    by_cases hdev : FS.existsPath fs (ap.augment_config ++ ["deviceId.json"]) = true
    · rw [if_pos hdev] at hres
      simp only [hd] at hres
      have hte : FS.existsPath
          (FS.set fs (ap.augment_config ++ ["deviceId.json"])
            (.file (.json (.obj [("deviceId", d)]))))
          (ap.augment_config ++ ["telemetry.json"])
          = FS.existsPath fs (ap.augment_config ++ ["telemetry.json"]) :=
        existsPath_set_ne fs _ _ _ (Ne.symm hne)
      rw [hte] at hres
      by_cases htel : FS.existsPath fs (ap.augment_config ++ ["telemetry.json"]) = true
      · rw [if_pos htel] at hres
        simp only [ht, Except.ok.injEq] at hres
        subst hres
        refine ⟨?_, ?_, ?_⟩
        · rw [if_pos hdev, lookup_set_ne _ _ _ _ hne]
          exact lookup_set_self _ _ _
        · rw [if_pos htel]
          exact lookup_set_self _ _ _
        · intro r h1 h2
          rw [lookup_set_ne _ _ _ _ h2, lookup_set_ne _ _ _ _ h1]
      · rw [if_neg htel] at hres
        simp only [Except.ok.injEq] at hres
        subst hres
        refine ⟨?_, ?_, ?_⟩
        · rw [if_pos hdev]
          exact lookup_set_self _ _ _
        · rw [if_neg htel]
          exact lookup_set_ne _ _ _ _ (Ne.symm hne)
        · intro r h1 h2
          exact lookup_set_ne _ _ _ _ h1
    · rw [if_neg hdev] at hres
      dsimp only at hres
      by_cases htel : FS.existsPath fs (ap.augment_config ++ ["telemetry.json"]) = true
      · rw [if_pos htel] at hres
        simp only [ht, Except.ok.injEq] at hres
        subst hres
        refine ⟨?_, ?_, ?_⟩
        · rw [if_neg hdev]
          exact lookup_set_ne _ _ _ _ hne
        · rw [if_pos htel]
          exact lookup_set_self _ _ _
        · intro r h1 h2
          exact lookup_set_ne _ _ _ _ h2
      · rw [if_neg htel] at hres
        simp only [Except.ok.injEq] at hres
        subst hres
        refine ⟨?_, ?_, ?_⟩
        · rw [if_neg hdev]
        · rw [if_neg htel]
        · intro r h1 h2
          rfl

/-- C3 witness: the amended statement applied to a concrete state with an
existing profile and an existing live device-id file. -/
theorem C3_witness :
    FS.lookup fsSwitchRes (apFix.augment_config ++ ["deviceId.json"])
      = (if FS.existsPath fsSwitch (apFix.augment_config ++ ["deviceId.json"]) = true
         then some (.file (.json (.obj [("deviceId", Json.str "X32")])))
         else FS.lookup fsSwitch (apFix.augment_config ++ ["deviceId.json"])) :=
  (C3_thm.2 mFix "w" fsSwitch fsSwitchRes apFix (profileJson "w" "t0" "X32" "Y36")
    (Json.str "X32") (Json.str "Y36") rfl rfl rfl rfl rfl).1

/-! ## Claim C2 -/

/-- C2 counterexample: with the augment config directory present, the
aggregate reset applies the selected strategy (the device-id file is
written) yet produces nothing under the backup directory — no backup is
attempted before the strategies run. -/
theorem C2_cex :
    snapshotEntries (reset_environment mFix ["device_id"] ⟨"NEWDEV", "NEWTEL"⟩
        "TS1" fsAC) ["backups"] = [] ∧
    FS.lookup (reset_environment mFix ["device_id"] ⟨"NEWDEV", "NEWTEL"⟩ "TS1" fsAC)
        ["gs", "augment.augment", "deviceId.json"]
      = some (.file (.json (.obj [("deviceId", .str "NEWDEV")]))) ∧
    FS.lookup fsAC ["gs", "augment.augment", "deviceId.json"] = none :=
  ⟨rfl, rfl, rfl⟩

/-- C2 (amended): the aggregate reset performs no backup: it aborts
(changing nothing) when the augment config directory is missing from the
path table or from the filesystem, and otherwise touches only the
strategy targets (the two identifier files, the history file, the
database file and its timestamped backup name, and ancestors of the
augment config directory) — in particular nothing under a disjoint backup
directory; when the config directory exists and the device-id strategy is
selected, the device-id file is written with the fresh identifier. -/
theorem C2_thm (m : Manager) (strategies : List String) (ids : ResetIds)
    (ts : String) (fs : FS) :
    (m.augmentPaths = none → reset_environment m strategies ids ts fs = fs) ∧
    (∀ ap, m.augmentPaths = some ap →
      (FS.existsPath fs ap.augment_config = false →
          reset_environment m strategies ids ts fs = fs) ∧
      (∀ r, r ≠ ap.augment_config ++ ["deviceId.json"] →
            r ≠ ap.augment_config ++ ["telemetry.json"] →
            r ≠ ap.history → r ≠ ap.database → r ≠ dbBackupPath ap.database ts →
            isUnder r ap.augment_config = false →
            FS.lookup (reset_environment m strategies ids ts fs) r
              = FS.lookup fs r) ∧
      (FS.existsPath fs ap.augment_config = true →
       strategies.contains "device_id" = true →
       ap.history ≠ ap.augment_config ++ ["deviceId.json"] →
       ap.database ≠ ap.augment_config ++ ["deviceId.json"] →
       dbBackupPath ap.database ts ≠ ap.augment_config ++ ["deviceId.json"] →
       FS.lookup (reset_environment m strategies ids ts fs)
           (ap.augment_config ++ ["deviceId.json"])
         = some (.file (.json (.obj [("deviceId", .str ids.device)]))))) := by
  constructor
  · intro h
    simp only [reset_environment, h]
  · intro ap hap
    refine ⟨?_, ?_, ?_⟩
    · intro hex
      simp only [reset_environment, hap]
      rw [if_neg (by simp [hex])]
    · intro r h1 h2 h3 h4 h5 h6
      by_cases hex : FS.existsPath fs ap.augment_config = true
      · simp only [reset_environment, hap]
        rw [if_pos hex]
        generalize (if strategies.isEmpty = true
            then jsonStrListD m.config "reset_strategies" else strategies) = S
        have hdev : ∀ g : FS, FS.lookup (if S.contains "device_id" = true
            then reset_device_id ap.augment_config ids.device g else g) r
            = FS.lookup g r := by
          intro g
          by_cases c : S.contains "device_id" = true
          · rw [if_pos c]
            exact lookup_reset_device_id_ne _ _ g r h1 h6
          · rw [if_neg c]
        have htel : ∀ g : FS, FS.lookup (if S.contains "telemetry_id" = true
            then reset_telemetry_id ap.augment_config ids.telemetry g else g) r
            = FS.lookup g r := by
          intro g
          by_cases c : S.contains "telemetry_id" = true
          · rw [if_pos c]
            exact lookup_reset_telemetry_id_ne _ _ g r h2 h6
          · rw [if_neg c]
        have hhist : ∀ g : FS, FS.lookup (if S.contains "history" = true
            then clear_history (some ap.history) g else g) r = FS.lookup g r := by
          intro g
          by_cases c : S.contains "history" = true
          · rw [if_pos c]
            exact lookup_clear_history_ne _ g r h3
          · rw [if_neg c]
        have hdb : ∀ g : FS, FS.lookup (if S.contains "database" = true
            then reset_database (some ap.database) ts g else g) r = FS.lookup g r := by
          intro g
          by_cases c : S.contains "database" = true
          · rw [if_pos c]
            exact lookup_reset_database_ne _ ts g r h4 h5
          · rw [if_neg c]
        rw [hdb, hhist, htel, hdev]
      · have hex2 : FS.existsPath fs ap.augment_config = false := by
          cases hc : FS.existsPath fs ap.augment_config
          · rfl
          · exact absurd hc hex
        simp only [reset_environment, hap]
        rw [if_neg (by simp [hex2])]
    · intro hex hcont hh hd hbp
      have hnil : strategies ≠ [] := by
        intro hn
        rw [hn] at hcont
        simp [List.contains] at hcont
      have hie : strategies.isEmpty = false := by
        cases strategies with
        | nil => exact absurd rfl hnil
        | cons a l => rfl
      simp only [reset_environment, hap, hie, Bool.false_eq_true, if_false]
      rw [if_pos hex]
      have h6 : isUnder (ap.augment_config ++ ["deviceId.json"]) ap.augment_config
          = false := isUnder_append_singleton _ _
      have s1 : FS.lookup (if strategies.contains "device_id" = true
          then reset_device_id ap.augment_config ids.device fs else fs)
          (ap.augment_config ++ ["deviceId.json"])
          = some (.file (.json (.obj [("deviceId", .str ids.device)]))) := by
        rw [if_pos hcont]
        exact lookup_reset_device_id_self _ _ _
      have s2 : ∀ g : FS,
          FS.lookup g (ap.augment_config ++ ["deviceId.json"])
            = some (.file (.json (.obj [("deviceId", .str ids.device)]))) →
          FS.lookup (if strategies.contains "telemetry_id" = true
            then reset_telemetry_id ap.augment_config ids.telemetry g else g)
            (ap.augment_config ++ ["deviceId.json"])
            = some (.file (.json (.obj [("deviceId", .str ids.device)]))) := by
        intro g hg
        by_cases c : strategies.contains "telemetry_id" = true
        · rw [if_pos c,
              lookup_reset_telemetry_id_ne _ _ g _ (append_singleton_ne (by decide)) h6]
          exact hg
        · rw [if_neg c]
          exact hg
      have s3 : ∀ g : FS,
          FS.lookup g (ap.augment_config ++ ["deviceId.json"])
            = some (.file (.json (.obj [("deviceId", .str ids.device)]))) →
          FS.lookup (if strategies.contains "history" = true
            then clear_history (some ap.history) g else g)
            (ap.augment_config ++ ["deviceId.json"])
            = some (.file (.json (.obj [("deviceId", .str ids.device)]))) := by
        intro g hg
        by_cases c : strategies.contains "history" = true
        · rw [if_pos c, lookup_clear_history_ne _ g _ (Ne.symm hh)]
          exact hg
        · rw [if_neg c]
          exact hg
      have s4 : ∀ g : FS,
          FS.lookup g (ap.augment_config ++ ["deviceId.json"])
            = some (.file (.json (.obj [("deviceId", .str ids.device)]))) →
          FS.lookup (if strategies.contains "database" = true
            then reset_database (some ap.database) ts g else g)
            (ap.augment_config ++ ["deviceId.json"])
            = some (.file (.json (.obj [("deviceId", .str ids.device)]))) := by
        intro g hg
        by_cases c : strategies.contains "database" = true
        · rw [if_pos c,
              lookup_reset_database_ne _ ts g _ (Ne.symm hd) (Ne.symm hbp)]
          exact hg
        · rw [if_neg c]
          exact hg
      exact s4 _ (s3 _ (s2 _ s1))

/-- C2 witness: the amended statement applied at concrete inputs (an
empty path table makes the reset abort without touching the state). -/
theorem C2_witness :
    reset_environment mNone ["device_id"] ⟨"D", "T"⟩ "TS1" fsBase = fsBase :=
  (C2_thm mNone ["device_id"] ⟨"D", "T"⟩ "TS1" fsBase).1 rfl

/-! ## Claim C7 -/

/-- C7 counterexample: with the configuration root absent (nothing under
`gs` exists in `fsBase`), `backup_current_state` still creates the
timestamped snapshot directory and returns its path, instead of returning
no snapshot. -/
theorem C7_cex :
    FS.existsPath fsBase ["gs", "augment.augment"] = false ∧
    (backup_current_state mFix "TS2" fsBase).1 = ["backups", "backup_TS2"] ∧
    FS.existsPath (backup_current_state mFix "TS2" fsBase).2
        ["backups", "backup_TS2"] = true ∧
    FS.existsPath fsBase ["backups", "backup_TS2"] = false :=
  ⟨rfl, rfl, rfl, rfl⟩

/-- C7 (amended): `backup_current_state` always creates the timestamped
snapshot directory and returns its path — also when the configuration
root does not exist (e.g. an empty path table), in which case nothing is
copied into the snapshot: every path strictly under the snapshot
directory is untouched. -/
theorem C7_thm (m : Manager) (ts : String) (fs : FS) :
    (backup_current_state m ts fs).1 = m.backupDir ++ ["backup_" ++ ts] ∧
    FS.existsPath (backup_current_state m ts fs).2
        (m.backupDir ++ ["backup_" ++ ts]) = true ∧
    (m.augmentPaths = none →
      ∀ r, isUnder (m.backupDir ++ ["backup_" ++ ts]) r = true →
        r ≠ m.backupDir ++ ["backup_" ++ ts] →
        FS.lookup (backup_current_state m ts fs).2 r = FS.lookup fs r) := by
  refine ⟨rfl, ?_, ?_⟩
  · have hbp : m.backupDir ++ ["backup_" ++ ts] ≠ [] := by simp
    cases hm : m.augmentPaths with
    | none =>
        simp only [backup_current_state, hm]
        exact existsPath_mkdirParents_self fs _ hbp
    | some ap =>
        simp only [backup_current_state, hm]
        have h1 : FS.existsPath (FS.mkdirParents fs (m.backupDir ++ ["backup_" ++ ts]))
            (m.backupDir ++ ["backup_" ++ ts]) = true :=
          existsPath_mkdirParents_self fs _ hbp
        have h2 : ∀ g : FS, FS.existsPath g (m.backupDir ++ ["backup_" ++ ts]) = true →
            FS.existsPath (if FS.existsPath g ap.augment_config = true
              then FS.copytree g ap.augment_config
                     (m.backupDir ++ ["backup_" ++ ts] ++ ["augment_config"])
              else g) (m.backupDir ++ ["backup_" ++ ts]) = true := by
          intro g hg
          by_cases c : FS.existsPath g ap.augment_config = true
          · rw [if_pos c]
            exact existsPath_copytree_mono g _ _ _ hg
          · rw [if_neg c]
            exact hg
        have h3 : ∀ g : FS, FS.existsPath g (m.backupDir ++ ["backup_" ++ ts]) = true →
            FS.existsPath (if FS.existsPath g ap.vscode = true
              then FS.copytree g ap.vscode
                     (m.backupDir ++ ["backup_" ++ ts] ++ ["vscode_global_storage"])
              else g) (m.backupDir ++ ["backup_" ++ ts]) = true := by
          intro g hg
          by_cases c : FS.existsPath g ap.vscode = true
          · rw [if_pos c]
            exact existsPath_copytree_mono g _ _ _ hg
          · rw [if_neg c]
            exact hg
        exact h3 _ (h2 _ h1)
  · intro hm r hru hne
    simp only [backup_current_state, hm]
    refine lookup_mkdirList_not_mem fs _ r (fun hmem => ?_)
    exact hne (isUnder_antisymm (mem_prefixesOf_isUnder hmem) hru)

/-- C7 witness: with an empty path table the backup creates the snapshot
directory but copies nothing into it. -/
theorem C7_witness :
    FS.lookup (backup_current_state mNone "TS2" fsBase).2
        ["backups", "backup_TS2", "x"]
      = FS.lookup fsBase ["backups", "backup_TS2", "x"] :=
  (C7_thm mNone "TS2" fsBase).2.2 rfl ["backups", "backup_TS2", "x"] rfl (by decide)

/-! ## Claim C10 -/

/-- C10 counterexample: the empty strategy list and the list `["bogus"]`
contain the same (empty) subset of the four recognized strategy names,
yet the empty list falls back to the configured strategies and rewrites
the device-id file, while `["bogus"]` leaves the filesystem unchanged —
the outcome is not determined by the recognized subset alone. -/
theorem C10_cex :
    (["device_id", "telemetry_id", "history", "database"].all
        (fun k => (([] : List String).contains k) == (["bogus"].contains k))) = true ∧
    FS.lookup (reset_environment mFix [] ⟨"NEWDEV", "NEWTEL"⟩ "TS1" fsAC)
        ["gs", "augment.augment", "deviceId.json"]
      = some (.file (.json (.obj [("deviceId", .str "NEWDEV")]))) ∧
    reset_environment mFix ["bogus"] ⟨"NEWDEV", "NEWTEL"⟩ "TS1" fsAC = fsAC ∧
    FS.lookup fsAC ["gs", "augment.augment", "deviceId.json"] = none :=
  ⟨rfl, rfl, rfl, rfl⟩

/-- C10 (amended): for any two NONEMPTY strategy lists containing the
same subset of the four recognized names, the aggregate reset yields
exactly the same filesystem: the outcome is independent of order and
multiplicity, and unrecognized names in a nonempty list are ignored.  (An
empty list instead falls back to the configured strategy list.) -/
theorem C10_thm (m : Manager) (s1 s2 : List String) (ids : ResetIds)
    (ts : String) (fs : FS)
    (h1 : s1 ≠ []) (h2 : s2 ≠ [])
    (hd : s1.contains "device_id" = s2.contains "device_id")
    (ht : s1.contains "telemetry_id" = s2.contains "telemetry_id")
    (hh : s1.contains "history" = s2.contains "history")
    (hb : s1.contains "database" = s2.contains "database") :
    reset_environment m s1 ids ts fs = reset_environment m s2 ids ts fs := by
  have hie1 : s1.isEmpty = false := by
    cases s1 with
    | nil => exact absurd rfl h1
    | cons a l => rfl
  have hie2 : s2.isEmpty = false := by
    cases s2 with
    | nil => exact absurd rfl h2
    | cons a l => rfl
  simp only [reset_environment, hie1, hie2, Bool.false_eq_true, if_false]
  rw [hd, ht, hh, hb]

/-- C10 witness: two nonempty lists with the same recognized subset
(different order, a duplicate, and an unrecognized name) produce the same
state. -/
theorem C10_witness :
    reset_environment mFix ["history", "device_id", "device_id"] ⟨"D", "T"⟩ "TS1" fsAC
      = reset_environment mFix ["device_id", "bogus", "history"] ⟨"D", "T"⟩ "TS1" fsAC :=
  C10_thm mFix ["history", "device_id", "device_id"] ["device_id", "bogus", "history"]
    ⟨"D", "T"⟩ "TS1" fsAC (by decide) (by decide) rfl rfl rfl rfl
